import Mathlib

/-!
Verification of the HGT-simulation engine of the WGS-HGT repository
(`benchmark/simulate_hgts.py`), by a shallow embedding in Lean 4.

Modelling conventions:
* a nucleotide sequence is a `List Char`; Python slicing `s[a:b]` (with
  non-negative, clipped indices) is `pySlice`;
* a gene record `[translation, start, end, strand]` is the structure
  `GeneRecord` (the Python list field `end` is called `endPos` because
  `end` is a Lean keyword);
* a Python dictionary of genes is an association list `Catalog` in
  insertion order; `assocFind`, `assocPop` and `assocInsert` model
  dictionary lookup, `pop` and item assignment;
* all randomness is an explicit parameter: `random.sample` becomes
  `pySample` driven by a list of raw draws, and the rejection-sampling
  `while` loop of `simulate_orthologous_rep` consumes an explicit list
  of drawn member indexes (`selectPairLoop`);
* fatal Python exceptions (`ValueError` from `random.sample`, `KeyError`
  from `dict.pop`, the explicit `raise ValueError`) are modelled by
  `Option`: `none` is an aborted run.
-/

/-- Python slice `s[a:b]` for `0 ≤ a`, `0 ≤ b`, with clipping at the ends. -/
def pySlice (s : List Char) (a b : Nat) : List Char :=
  (s.take b).drop a

/-- Python `int(q)` (truncation toward zero) on an exact rational. -/
def pyInt (q : ℚ) : ℤ :=
  if 0 ≤ q then Int.floor q else Int.ceil q

/-- A gene record: the 4-element list
`[translated sequence, start, end, strand]` of `simulate_hgts.py`
(`end` is renamed `endPos`; intervals are 0-based half-open). -/
structure GeneRecord where
  trans : String
  start : Nat
  endPos : Nat
  strand : String
deriving Repr, DecidableEq

/-- A gene dictionary (`genes_donor` / `genes_recip`): an association list
in insertion order, keyed by protein id. -/
abbrev Catalog : Type := List (String × GeneRecord)

/-- The keys of a catalog, in order. -/
def catKeys (c : Catalog) : List String :=
  c.map Prod.fst

/-- Dictionary lookup `d[k]` (first binding wins). -/
def assocFind (c : Catalog) (k : String) : Option GeneRecord :=
  match c with
  | [] => none
  | (k0, v) :: rest => if k0 = k then some v else assocFind rest k

/-- Dictionary `d.pop(k)`: the removed value and the remaining catalog;
`none` models the `KeyError` when `k` is absent. -/
def assocPop (c : Catalog) (k : String) : Option (GeneRecord × Catalog) :=
  match c with
  | [] => none
  | (k0, v) :: rest =>
    if k0 = k then some (v, rest)
    else (assocPop rest k).map (fun p => (p.1, (k0, v) :: p.2))

/-- Dictionary assignment `d[k] = v`: replace in place if present,
append otherwise. -/
def assocInsert (c : Catalog) (k : String) (v : GeneRecord) : Catalog :=
  match c with
  | [] => [(k, v)]
  | (k0, v0) :: rest =>
    if k0 = k then (k0, v) :: rest else (k0, v0) :: assocInsert rest k v

/-- One line of the HGT log file (`log_f`), excluding the header lines:
`o` records come from `simulate_orthologous_rep` (9 columns), `n` records
from `simulate_novel_acq` (8 columns). -/
inductive LogRec where
  | o (donor : String) (dstart dend : Nat) (recip : String)
      (newLabel : String) (rstart rend : Nat) (strand : String)
  | n (donor : String) (dstart dend : Nat)
      (newLabel : String) (rstart rend : Nat) (strand : String)
deriving Repr, DecidableEq

/-- Whether a log record is a novel-acquisition (`n`) record. -/
def LogRec.isN : LogRec → Bool
  | .n _ _ _ _ _ _ _ => true
  | _ => false

/-- Number of `n`-type records in a log. -/
def countN (l : List LogRec) : Nat :=
  (l.filter LogRec.isN).length

/-- The mutable recipient-genome state threaded through the two
simulation passes: gene catalog, nucleotide sequence, and the log
records written so far. -/
structure SimState where
  genes : Catalog
  seq : List Char
  log : List LogRec
deriving Repr, DecidableEq

/-- Python `str.startswith(c)` for a one-character prefix: the first
character equals `c`. -/
def pyStartsWith (s : String) (c : Char) : Bool :=
  s.data.head? = some c

/-- `num_hgts` of `simulate_orthologous_rep` (lines 264-266):
`int(percentage_hgts*orthologous_rep_prob*len(genes_recip))`, raised to 1
when below 1. -/
def numHgtsRep (pct prob : ℚ) (n : Nat) : Nat :=
  let k := pyInt (pct * prob * (n : ℚ))
  if k < 1 then 1 else k.toNat

/-- `num_hgts` of `simulate_novel_acq` (lines 366-368):
`int(percentage_hgts*(1-orthologous_rep_prob)*len(genes_recip))`, raised
to 1 when below 1. -/
def numHgtsAcq (pct prob : ℚ) (n : Nat) : Nat :=
  let k := pyInt (pct * (1 - prob) * (n : ℚ))
  if k < 1 then 1 else k.toNat

/-- Round half up; used only to state what the spec's word `round`
would compute, for comparison with the code's truncation. -/
def roundHalfUp (q : ℚ) : ℤ :=
  Int.floor (q + 1 / 2)

/-- The per-pass HGT count as the spec words it
(`max(1, round(total_hgt_fraction * pass_fraction * |catalog|))`);
written from the spec sentence, to be compared with `numHgtsRep`. -/
def numHgtsSpecRound (pct frac : ℚ) (n : Nat) : Nat :=
  max 1 (roundHalfUp (pct * frac * (n : ℚ))).toNat

/-- `random.sample(pool, k)` body: repeatedly remove the element at a
drawn position from the remaining pool.  The raw draws `rng` stand for
the random source; a draw is reduced modulo the remaining pool size. -/
def pySampleAux {α : Type} : Nat → List Nat → List α → List α
  | 0, _, _ => []
  | Nat.succ k, rng, pool =>
    let i := rng.headD 0 % pool.length
    match pool.get? i with
    | none => []
    | some x => x :: pySampleAux k rng.tail (pool.eraseIdx i)

/-- `random.sample(pool, k)`: `none` models the `ValueError` raised when
the sample size exceeds the population size. -/
def pySample {α : Type} (pool : List α) (k : Nat) (rng : List Nat) :
    Option (List α) :=
  if pool.length < k then none else some (pySampleAux k rng pool)

/-- One orthologous family line of `clusters_OrthoFinder_*_id_pairs.txt`
as read by `parse_orthofinder` (lines 213-217): member labels are
`line[1:-1]`, and the family is kept only when it has more than one such
label. -/
def parse_orthofinder_group (tokens : List String) : Option (List String) :=
  let members := (tokens.drop 1).dropLast
  if 1 < members.length then some members else none

/-- The rejection-sampling `while` loop of `simulate_orthologous_rep`
(lines 274-283): keep drawing members of the group until slot 0 holds a
`'0'`-prefixed member's translation and slot 1 a `'1'`-prefixed one.
`draws` is the explicit list of drawn member indexes; `none` means the
loop was still running when the draws ran out (in Python the loop would
keep drawing forever if no suitable member exists). -/
def selectPairLoop (seqIds : String → String) (grp : List String) :
    List Nat → Option String → Option String → Option (String × String)
  | _, some a, some b => some (a, b)
  | [], none, _ => none
  | [], some _, none => none
  | d :: ds, none, none =>
    let gene := grp.getD d ""
    if pyStartsWith gene ('0') then
      selectPairLoop seqIds grp ds (some (seqIds gene)) none
    else if pyStartsWith gene ('1') then
      selectPairLoop seqIds grp ds none (some (seqIds gene))
    else selectPairLoop seqIds grp ds none none
  | d :: ds, none, some b =>
    let gene := grp.getD d ""
    if pyStartsWith gene ('0') then
      selectPairLoop seqIds grp ds (some (seqIds gene)) (some b)
    else selectPairLoop seqIds grp ds none (some b)
  | d :: ds, some a, none =>
    let gene := grp.getD d ""
    if pyStartsWith gene ('1') then
      selectPairLoop seqIds grp ds (some a) (some (seqIds gene))
    else selectPairLoop seqIds grp ds (some a) none

/-- Lines 287-296 of `simulate_orthologous_rep`: decide which of the two
selected labels is the donor gene and which the recipient gene, by
membership in the donor catalog; `none` models the `ValueError` raised
when neither label is a donor gene. -/
def resolvePair (genesDonor : Catalog) (s0 s1 : String) :
    Option (String × String) :=
  if (assocFind genesDonor s0).isSome then some (s0, s1)
  else if (assocFind genesDonor s1).isSome then some (s1, s0)
  else none

/-- Lines 298-326 of `simulate_orthologous_rep`, after the recipient
record `rRec` has been popped (leaving `genes1`): rename to the
`_hgt_o` label, overwrite the translation with the donor's, recompute
the end as `start + len(trans)*3`, splice the recipient sequence
(reading the start and the just-recomputed end back out of the record),
inherit the donor strand when the strands differ, and append the log
record. -/
def orthologousEditCore (dLbl : String) (dRec : GeneRecord)
    (rLbl : String) (rRec : GeneRecord) (genes1 : Catalog)
    (seqDonor seqRecip : List Char) (log : List LogRec) : SimState :=
  let hgt := dLbl ++ "_hgt_o"
  let newEnd := rRec.start + dRec.trans.length * 3
  let strand1 := if rRec.strand ≠ dRec.strand then dRec.strand else rRec.strand
  let rec1 : GeneRecord := ⟨dRec.trans, rRec.start, newEnd, strand1⟩
  { genes := assocInsert genes1 hgt rec1
    seq := seqRecip.take rRec.start ++ pySlice seqDonor dRec.start dRec.endPos
            ++ seqRecip.drop newEnd
    log := log ++ [LogRec.o dLbl dRec.start dRec.endPos rLbl hgt
                    rRec.start newEnd dRec.strand] }

/-- One orthologous-replacement edit on the recipient state, for an
already-resolved (donor label, recipient label) pair: look up the donor
record, pop the recipient record, and run `orthologousEditCore`.
`none` models the `KeyError` when a label is absent. -/
def applyRepEdit (genesDonor : Catalog) (seqDonor : List Char)
    (st : SimState) (dLbl rLbl : String) : Option SimState :=
  match assocFind genesDonor dLbl, assocPop st.genes rLbl with
  | some dRec, some (rRec, genes1) =>
    some (orthologousEditCore dLbl dRec rLbl rRec genes1 seqDonor st.seq st.log)
  | _, _ => none

/-- The replacement pass as a function of the resolved pairs it edits:
apply `applyRepEdit` sequentially. -/
def repPassPairs (genesDonor : Catalog) (seqDonor : List Char) :
    SimState → List (String × String) → Option SimState
  | st, [] => some st
  | st, (dLbl, rLbl) :: rest =>
    match applyRepEdit genesDonor seqDonor st dLbl rLbl with
    | none => none
    | some st1 => repPassPairs genesDonor seqDonor st1 rest

/-- The `for x in xrange(0, num_hgts)` loop of
`simulate_orthologous_rep` (lines 272-326): for each sampled group
index (paired with the explicit draws of its rejection-sampling loop),
select a donor/recipient member pair, resolve it, and apply the edit. -/
def repPass (genesDonor : Catalog) (seqDonor : List Char)
    (seqIds : String → String) (groups : List (List String)) :
    SimState → List (Nat × List Nat) → Option SimState
  | st, [] => some st
  | st, (gi, drs) :: rest =>
    match selectPairLoop seqIds (groups.getD gi []) drs none none with
    | none => none
    | some (s0, s1) =>
      match resolvePair genesDonor s0 s1 with
      | none => none
      | some (dLbl, rLbl) =>
        match applyRepEdit genesDonor seqDonor st dLbl rLbl with
        | none => none
        | some st1 => repPass genesDonor seqDonor seqIds groups st1 rest

/-- The sampling and edit loop of `simulate_orthologous_rep` for an
already-computed `num_hgts`: sample that many distinct group indexes
(`random.sample`, fatal when too few groups) and run the edit loop.
`memberDraws` lists, per sampled group, the member indexes drawn by the
rejection-sampling loop. -/
def simulate_orthologous_rep_n (genesDonor : Catalog) (seqDonor : List Char)
    (seqIds : String → String) (groups : List (List String))
    (rng : List Nat) (memberDraws : List (List Nat))
    (st : SimState) (numHgts : Nat) : Option SimState :=
  match pySample (List.range groups.length) numHgts rng with
  | none => none
  | some idxs =>
    repPass genesDonor seqDonor seqIds groups st
      (idxs.enum.map (fun p => (p.2, memberDraws.getD p.1 [])))

/-- `simulate_orthologous_rep` (lines 230-327): compute `num_hgts` from
the current recipient catalog size and run the sampling and edit loop of
`simulate_orthologous_rep_n`. -/
def simulate_orthologous_rep (genesDonor : Catalog) (seqDonor : List Char)
    (seqIds : String → String) (groups : List (List String))
    (prob pct : ℚ) (rng : List Nat) (memberDraws : List (List Nat))
    (st : SimState) : Option SimState :=
  simulate_orthologous_rep_n genesDonor seqDonor seqIds groups rng memberDraws
    st (numHgtsRep pct prob st.genes.length)

/-- Lines 370-375 of `simulate_novel_acq`: the recipient gene
positioning array — one `(start, end)` pair per catalog entry in
dictionary order, followed by the sentinels `(0,0)` and `(L,L)`. -/
def genePositions (c : Catalog) (L : Nat) : List (Nat × Nat) :=
  c.map (fun p => (p.2.start, p.2.endPos)) ++ [(0, 0), (L, L)]

/-- Stable insertion (by strictly smaller first component) used to model
Python's stable `sorted(gene_positions, key=itemgetter(0))`: an element
is placed after every element whose key is less than or equal to its
own. -/
def insertByStart (x : Nat × Nat) : List (Nat × Nat) → List (Nat × Nat)
  | [] => [x]
  | y :: ys => if x.1 < y.1 then x :: y :: ys else y :: insertByStart x ys

/-- Python's stable ascending sort of the positioning array by start
position (line 377). -/
def sortPositions (l : List (Nat × Nat)) : List (Nat × Nat) :=
  l.foldl (fun acc x => insertByStart x acc) []

/-- The inner `for y in ...` scan of `simulate_novel_acq`
(lines 393-419), walking the intervals after the starting rank: accept
the current candidate point `cand` when `cand + gene_length < next
interval start`, otherwise move the candidate to one past the next
interval's end. -/
def scanSlot (len3 : Nat) : Nat → List (Nat × Nat) → Option Nat
  | _, [] => none
  | cand, nxt :: rest =>
    if cand + len3 < nxt.1 then some cand else scanSlot len3 (nxt.2 + 1) rest

/-- The candidate insertion points generated by `scanSlot`, each paired
with the next-interval start it is checked against. -/
def slotCands : Nat → List (Nat × Nat) → List (Nat × Nat)
  | _, [] => []
  | cand, nxt :: rest => (cand, nxt.1) :: slotCands (nxt.2 + 1) rest

/-- The open-slot search of `simulate_novel_acq` for one draw: the first
candidate is one past the end of the interval at the drawn rank
(line 389: `gene_positions_s[idx[x]][1] + 1`), and the scan walks the
following intervals. -/
def findSlot (ps : List (Nat × Nat)) (r : Nat) (len3 : Nat) : Option Nat :=
  match ps.get? r with
  | none => none
  | some cur => scanSlot len3 (cur.2 + 1) (ps.drop (r + 1))

/-- One draw of the `for x in ...` loop of `simulate_novel_acq`
(lines 386-419): look up the drawn donor gene, search for an open slot
from the drawn rank; on success insert the gene into the catalog,
splice the donor nucleotide subsequence into the recipient sequence at
the insertion point, and append the log record; otherwise leave the
state untouched. -/
def novelStep (genesDonor : Catalog) (seqDonor : List Char)
    (ps : List (Nat × Nat)) (st : SimState) (r : Nat) (lbl : String) :
    SimState :=
  match assocFind genesDonor lbl with
  | none => st
  | some dRec =>
    match findSlot ps r (dRec.trans.length * 3) with
    | none => st
    | some c =>
      let cEnd := c + dRec.trans.length * 3
      let hgt := lbl ++ "_hgt_n"
      { genes := assocInsert st.genes hgt ⟨dRec.trans, c, cEnd, dRec.strand⟩
        seq := st.seq.take c ++ pySlice seqDonor dRec.start dRec.endPos
                ++ st.seq.drop c
        log := st.log ++ [LogRec.n lbl dRec.start dRec.endPos hgt c cEnd
                           dRec.strand] }

/-- The draw loop of `simulate_novel_acq`: process the zipped
(rank, donor label) draws in order. -/
def novelPass (genesDonor : Catalog) (seqDonor : List Char)
    (ps : List (Nat × Nat)) : SimState → List (Nat × String) → SimState
  | st, [] => st
  | st, (r, lbl) :: rest =>
    novelPass genesDonor seqDonor ps
      (novelStep genesDonor seqDonor ps st r lbl) rest

/-- The sampling and draw loop of `simulate_novel_acq` for an
already-computed `num_hgts`: build and sort the positioning array once,
sample the starting ranks and the donor gene labels without replacement
(each fatal when the population is too small), and run the draw loop. -/
def simulate_novel_acq_n (genesDonor : Catalog) (seqDonor : List Char)
    (rngRanks rngLabels : List Nat) (st : SimState) (numHgts : Nat) :
    Option SimState :=
  let ps := sortPositions (genePositions st.genes st.seq.length)
  match pySample (List.range (ps.length - 1)) numHgts rngRanks with
  | none => none
  | some ranks =>
    match pySample (catKeys genesDonor) numHgts rngLabels with
    | none => none
    | some lbls => some (novelPass genesDonor seqDonor ps st (ranks.zip lbls))

/-- `simulate_novel_acq` (lines 330-421): compute `num_hgts` from the
current recipient catalog size and run the sampling and draw loop of
`simulate_novel_acq_n`. -/
def simulate_novel_acq (genesDonor : Catalog) (seqDonor : List Char)
    (prob pct : ℚ) (rngRanks rngLabels : List Nat) (st : SimState) :
    Option SimState :=
  simulate_novel_acq_n genesDonor seqDonor rngRanks rngLabels st
    (numHgtsAcq pct prob st.genes.length)

/-- All random draws of one simulation run, threaded explicitly: the raw
draws behind the two `random.sample` calls of each pass and the member
indexes drawn by the rejection-sampling loop of the replacement pass. -/
structure RandSource where
  repRng : List Nat
  repDraws : List (List Nat)
  acqRngRanks : List Nat
  acqRngLabels : List Nat
deriving Repr, DecidableEq

/-- The driver `simulate_hgts` (lines 537-576), restricted to the core:
run the replacement pass when `orthologous_rep_prob > 0` (skipped with a
warning when no orthologous groups were found), then the acquisition
pass when `1 - orthologous_rep_prob > 0`, threading the recipient state
through.  The OrthoFinder invocation and all file writing are external
collaborators; its parsed output enters as `groups` and `seqIds`. -/
def simulate_hgts (genesDonor : Catalog) (seqDonor : List Char)
    (genesRecip : Catalog) (seqRecip : List Char)
    (seqIds : String → String) (groups : List (List String))
    (pct prob : ℚ) (rand : RandSource) : Option SimState :=
  let st0 : SimState := ⟨genesRecip, seqRecip, []⟩
  let afterRep : Option SimState :=
    if 0 < prob then
      if groups.isEmpty then some st0
      else simulate_orthologous_rep genesDonor seqDonor seqIds groups
             prob pct rand.repRng rand.repDraws st0
    else some st0
  match afterRep with
  | none => none
  | some st1 =>
    if 0 < 1 - prob then
      simulate_novel_acq genesDonor seqDonor prob pct
        rand.acqRngRanks rand.acqRngLabels st1
    else some st1

/-- The `(start, end)` intervals of a catalog, in order. -/
def intervalsOf (c : Catalog) : List (Nat × Nat) :=
  c.map (fun p => (p.2.start, p.2.endPos))

/-- Two half-open intervals intersect. -/
def overlapsB (a b : Nat × Nat) : Bool :=
  decide (a.1 < b.2) && decide (b.1 < a.2)

/-- All intervals in the list are pairwise non-overlapping. -/
def pairwiseDisjointB : List (Nat × Nat) → Bool
  | [] => true
  | x :: xs => xs.all (fun y => !overlapsB x y) && pairwiseDisjointB xs

/-- Every catalog interval lies within the bounds of a sequence of
length `L`. -/
def inBoundsB (c : Catalog) (L : Nat) : Bool :=
  c.all (fun p => decide (p.2.start ≤ p.2.endPos) && decide (p.2.endPos ≤ L))

/-!  ### Concrete genomes used by counterexamples, failing inputs and witnesses

`grScenario` over a 100-nucleotide recipient sequence is the spec's own
concrete scenario: `g1 = [0,30)`, `g2 = [40,70)`, and a 15-nucleotide
donor gene (5 translated residues).  `gdRun`, `idsRun`, `groupsRun` and
`randRun` extend it to a complete two-pass run.
-/

/-- Recipient catalog of the concrete scenario. -/
def grScenario : Catalog :=
  [("g1", ⟨"ABCDEFGHIJ", 0, 30, "+"⟩), ("g2", ⟨"KLMNOPQRST", 40, 70, "+"⟩)]

/-- Donor catalog of the concrete scenario: one 15-nucleotide gene. -/
def gdScenario : Catalog :=
  [("d1", ⟨"MMMMM", 10, 25, "+"⟩)]

/-- Donor nucleotide sequence (30 nucleotides). -/
def sdScenario : List Char :=
  List.replicate 30 ('d')

/-- Recipient nucleotide sequence (100 nucleotides). -/
def srScenario : List Char :=
  List.replicate 100 ('x')

/-- Donor catalog for the complete two-pass run: the scenario gene plus
one 30-nucleotide orthologous-replacement gene. -/
def gdRun : Catalog :=
  [("d1", ⟨"MMMMM", 10, 25, "+"⟩), ("d0", ⟨"WWWWWWWWWW", 0, 30, "-"⟩)]

/-- Label-translation table (`sequence_ids`) for the two-pass run. -/
def idsRun : String → String :=
  fun s => if s = "0a" then "d0" else if s = "1a" then "g1" else s

/-- One orthologous group pairing the donor gene `d0` with the recipient
gene `g1`. -/
def groupsRun : List (List String) :=
  [["0a", "1a"]]

/-- The explicit random draws of the two-pass run. -/
def randRun : RandSource :=
  ⟨[0], [[0, 1]], [0], [0]⟩

/-- The recipient state after the replacement pass of the two-pass run
(g1 replaced by d0; the sequence keeps length 100). -/
def stAfterRep : SimState :=
  ⟨[("g2", ⟨"KLMNOPQRST", 40, 70, "+"⟩), ("d0_hgt_o", ⟨"WWWWWWWWWW", 0, 30, "-"⟩)],
    List.replicate 30 ('d') ++ List.replicate 70 ('x'),
    [LogRec.o ("d0") 0 30 ("g1") ("d0_hgt_o") 0 30 ("-")]⟩

/-- The recipient state after the acquisition-only run on the scenario:
the donor gene was inserted at point 1 with interval `[1,16)`. -/
def stScenario : SimState :=
  ⟨[("g1", ⟨"ABCDEFGHIJ", 0, 30, "+"⟩), ("g2", ⟨"KLMNOPQRST", 40, 70, "+"⟩),
    ("d1_hgt_n", ⟨"MMMMM", 1, 16, "+"⟩)],
    ['x'] ++ List.replicate 15 ('d') ++ List.replicate 99 ('x'),
    [LogRec.n ("d1") 10 25 ("d1_hgt_n") 1 16 ("+")]⟩

/-- The final recipient state of the complete two-pass run. -/
def stFinalRun : SimState :=
  ⟨[("g2", ⟨"KLMNOPQRST", 40, 70, "+"⟩), ("d0_hgt_o", ⟨"WWWWWWWWWW", 0, 30, "-"⟩),
    ("d1_hgt_n", ⟨"MMMMM", 1, 16, "+"⟩)],
    List.replicate 45 ('d') ++ List.replicate 70 ('x'),
    [LogRec.o ("d0") 0 30 ("g1") ("d0_hgt_o") 0 30 ("-"),
      LogRec.n ("d1") 10 25 ("d1_hgt_n") 1 16 ("+")]⟩

/-! ### Association-list (dictionary) lemmas -/

theorem assocFind_assocInsert_self (c : Catalog) (k : String) (v : GeneRecord) :
    assocFind (assocInsert c k v) k = some v := by
  induction c with
  | nil => simp [assocInsert, assocFind]
  | cons hd tl ih =>
    obtain ⟨k0, v0⟩ := hd
    by_cases h : k0 = k
    · simp [assocInsert, assocFind, h]
    · simp [assocInsert, assocFind, h, ih]

theorem assocInsert_keys_fresh (c : Catalog) (k : String) (v : GeneRecord)
    (h : k ∉ catKeys c) :
    catKeys (assocInsert c k v) = catKeys c ++ [k] := by
  induction c with
  | nil => simp [assocInsert, catKeys]
  | cons hd tl ih =>
    obtain ⟨k0, v0⟩ := hd
    simp only [catKeys, List.map_cons, List.mem_cons] at h
    push_neg at h
    simp [assocInsert, catKeys, Ne.symm h.1, List.map_cons]
    exact ih h.2

theorem assocInsert_length_fresh (c : Catalog) (k : String) (v : GeneRecord)
    (h : k ∉ catKeys c) :
    (assocInsert c k v).length = c.length + 1 := by
  have hk := assocInsert_keys_fresh c k v h
  have h1 : (catKeys (assocInsert c k v)).length = (catKeys c ++ [k]).length := by
    rw [hk]
  simpa [catKeys] using h1

theorem assocPop_keys (c : Catalog) (k : String) (v : GeneRecord) (c1 : Catalog)
    (h : assocPop c k = some (v, c1)) :
    catKeys c1 = (catKeys c).erase k := by
  induction c generalizing c1 with
  | nil => simp [assocPop] at h
  | cons hd tl ih =>
    obtain ⟨k0, v0⟩ := hd
    by_cases hk : k0 = k
    · subst hk
      simp [assocPop] at h
      simp [catKeys, h.2, List.erase_cons_head]
    · simp [assocPop, hk] at h
      obtain ⟨p, rest, hpop, hpv, hrest⟩ := h
      subst hpv
      have hkeys : catKeys rest = (catKeys tl).erase k := ih rest hpop
      rw [← hrest]
      simp only [catKeys, List.map_cons]
      rw [List.erase_cons_tail]
      · simpa [catKeys] using hkeys
      · simp [hk]

theorem assocPop_length (c : Catalog) (k : String) (v : GeneRecord) (c1 : Catalog)
    (h : assocPop c k = some (v, c1)) :
    c.length = c1.length + 1 := by
  induction c generalizing c1 with
  | nil => simp [assocPop] at h
  | cons hd tl ih =>
    obtain ⟨k0, v0⟩ := hd
    by_cases hk : k0 = k
    · subst hk
      simp [assocPop] at h
      simp [h.2]
    · simp [assocPop, hk] at h
      obtain ⟨p, rest, hpop, hpv, hrest⟩ := h
      subst hpv
      rw [← hrest]
      simp [ih rest hpop]

theorem assocPop_mem_of_mem (c : Catalog) (k : String) (v : GeneRecord)
    (c1 : Catalog) (h : assocPop c k = some (v, c1)) (a : String)
    (ha : a ∈ catKeys c) (hne : a ≠ k) : a ∈ catKeys c1 := by
  rw [assocPop_keys c k v c1 h]
  exact (List.mem_erase_of_ne hne).mpr ha

theorem assocPop_not_mem (c : Catalog) (k : String) (v : GeneRecord)
    (c1 : Catalog) (h : assocPop c k = some (v, c1)) (a : String)
    (ha : a ∉ catKeys c) : a ∉ catKeys c1 := by
  rw [assocPop_keys c k v c1 h]
  intro hmem
  exact ha (List.mem_of_mem_erase hmem)

/-! ### Slice length -/

theorem pySlice_length (s : List Char) (a b : Nat) (hab : a ≤ b)
    (hb : b ≤ s.length) : (pySlice s a b).length = b - a := by
  simp [pySlice, List.length_drop, List.length_take]
  omega

/-! ### The open-slot scan is a first-match search over its candidates -/

theorem scanSlot_eq_find (len3 : Nat) (l : List (Nat × Nat)) (cand : Nat) :
    scanSlot len3 cand l =
      ((slotCands cand l).find? (fun p => decide (p.1 + len3 < p.2))).map
        Prod.fst := by
  induction l generalizing cand with
  | nil => simp [scanSlot, slotCands]
  | cons nxt rest ih =>
    by_cases h : cand + len3 < nxt.1
    · simp [scanSlot, slotCands, List.find?_cons, h]
    · simp [scanSlot, slotCands, List.find?_cons, h, ih]

/-! ### The rejection-sampling loop -/

theorem pyStartsWith_zero_ne_one (s : String)
    (h0 : pyStartsWith s ('0') = true) : pyStartsWith s ('1') = false := by
  simp [pyStartsWith] at h0 ⊢
  rw [h0]
  intro hcontr
  exact absurd (Option.some.inj hcontr) (by decide)

theorem selectPairLoop_isSome (seqIds : String → String) (grp : List String) :
    ∀ (draws : List Nat) (s0 s1 : Option String),
    (s0.isSome = true ∨ ∃ i ∈ draws, pyStartsWith (grp.getD i "") ('0') = true) →
    (s1.isSome = true ∨ ∃ j ∈ draws, pyStartsWith (grp.getD j "") ('1') = true) →
    (selectPairLoop seqIds grp draws s0 s1).isSome = true := by
  intro draws
  induction draws with
  | nil =>
    intro s0 s1 h0 h1
    rcases s0 with _ | a
    · rcases h0 with h0 | ⟨i, hi, _⟩
      · simp at h0
      · simp at hi
    · rcases s1 with _ | b
      · rcases h1 with h1 | ⟨j, hj, _⟩
        · simp at h1
        · simp at hj
      · simp [selectPairLoop]
  | cons d ds ih =>
    intro s0 s1 h0 h1
    have htrans : ∀ (bad : Char),
        (∃ i ∈ d :: ds, pyStartsWith (grp.getD i "") bad = true) →
        pyStartsWith (grp.getD d "") bad = false →
        ∃ i ∈ ds, pyStartsWith (grp.getD i "") bad = true := by
      intro bad hyp hne
      obtain ⟨i, hi, hi0⟩ := hyp
      rcases List.mem_cons.mp hi with hie | him
      · exfalso; rw [hie] at hi0; rw [hi0] at hne
        exact Bool.true_eq_false.mp hne
      · exact ⟨i, him, hi0⟩
    rcases s0 with _ | a
    · rcases s1 with _ | b
      · rw [selectPairLoop]
        by_cases hd0 : pyStartsWith (grp.getD d "") ('0') = true
        · simp only [hd0, if_true]
          apply ih
          · left; simp
          · rcases h1 with h1 | hyp
            · simp at h1
            · exact Or.inr (htrans ('1') hyp (pyStartsWith_zero_ne_one _ hd0))
        · by_cases hd1 : pyStartsWith (grp.getD d "") ('1') = true
          · simp only [Bool.not_eq_true] at hd0
            simp only [hd0, hd1, Bool.false_eq_true, if_false, if_true]
            apply ih
            · rcases h0 with h0 | hyp
              · simp at h0
              · exact Or.inr (htrans ('0') hyp hd0)
            · left; simp
          · simp only [Bool.not_eq_true] at hd0 hd1
            simp only [hd0, hd1, Bool.false_eq_true, if_false]
            apply ih
            · rcases h0 with h0 | hyp
              · simp at h0
              · exact Or.inr (htrans ('0') hyp hd0)
            · rcases h1 with h1 | hyp
              · simp at h1
              · exact Or.inr (htrans ('1') hyp hd1)
      · rw [selectPairLoop]
        by_cases hd0 : pyStartsWith (grp.getD d "") ('0') = true
        · simp only [hd0, if_true]
          apply ih
          · left; simp
          · left; simp
        · simp only [Bool.not_eq_true] at hd0
          simp only [hd0, Bool.false_eq_true, if_false]
          apply ih
          · rcases h0 with h0 | hyp
            · simp at h0
            · exact Or.inr (htrans ('0') hyp hd0)
          · left; simp
    · rcases s1 with _ | b
      · rw [selectPairLoop]
        by_cases hd1 : pyStartsWith (grp.getD d "") ('1') = true
        · simp only [hd1, if_true]
          apply ih
          · left; simp
          · left; simp
        · simp only [Bool.not_eq_true] at hd1
          simp only [hd1, Bool.false_eq_true, if_false]
          apply ih
          · left; simp
          · rcases h1 with h1 | hyp
            · simp at h1
            · exact Or.inr (htrans ('1') hyp hd1)
      · simp [selectPairLoop]

/-! ### Sampling without replacement -/

theorem get_not_mem_eraseIdx {α : Type} (l : List α) (i : Nat) (x : α)
    (hnd : l.Nodup) (hget : l.get? i = some x) : x ∉ l.eraseIdx i := by
  induction l generalizing i with
  | nil => simp [List.get?] at hget
  | cons y ys ih =>
    cases i with
    | zero =>
      simp [List.get?] at hget
      subst hget
      simpa using (List.nodup_cons.mp hnd).1
    | succ j =>
      simp only [List.get?] at hget
      simp only [List.eraseIdx, List.mem_cons]
      rintro (hxy | hmem)
      · subst hxy
        exact (List.nodup_cons.mp hnd).1 (List.get?_mem hget)
      · exact ih j (List.nodup_cons.mp hnd).2 hget hmem

theorem pySampleAux_nodup {α : Type} :
    ∀ (k : Nat) (rng : List Nat) (pool : List α), pool.Nodup →
    (pySampleAux k rng pool).Nodup := by
  intro k
  induction k with
  | zero => intro rng pool hnd; simp [pySampleAux]
  | succ j ih =>
    intro rng pool hnd
    rw [pySampleAux]
    cases hget : pool.get? (rng.headD 0 % pool.length) with
    | none => simp
    | some x =>
      simp only [List.nodup_cons]
      constructor
      · intro hmem
        have hsub : pySampleAux j rng.tail
            (pool.eraseIdx (rng.headD 0 % pool.length)) ⊆
            pool.eraseIdx (rng.headD 0 % pool.length) := by
          clear hmem ih
          generalize pool.eraseIdx (rng.headD 0 % pool.length) = pool2
          clear hget hnd pool
          induction j generalizing rng pool2 with
          | zero => simp [pySampleAux]
          | succ m ihm =>
            rw [pySampleAux]
            cases hg2 : pool2.get? (rng.tail.headD 0 % pool2.length) with
            | none => simp
            | some y =>
              intro z hz
              rcases List.mem_cons.mp hz with hzy | hzm
              · subst hzy
                exact List.get?_mem hg2
              · exact (List.eraseIdx_sublist pool2
                  (rng.tail.headD 0 % pool2.length)).subset (ihm _ _ hzm)
        exact get_not_mem_eraseIdx pool _ x hnd hget (hsub hmem)
      · exact ih rng.tail _
          ((List.eraseIdx_sublist pool (rng.headD 0 % pool.length)).nodup hnd)

theorem pySample_nodup {α : Type} (pool : List α) (k : Nat) (rng : List Nat)
    (l : List α) (hnd : pool.Nodup) (h : pySample pool k rng = some l) :
    l.Nodup := by
  unfold pySample at h
  by_cases hk : pool.length < k
  · simp [hk] at h
  · simp [hk] at h
    rw [← h]
    exact pySampleAux_nodup k rng pool hnd

/-! ### The per-pass HGT count -/

theorem numHgtsRep_eq_floor (pct prob : ℚ) (n : Nat) (h : 0 ≤ pct * prob) :
    numHgtsRep pct prob n = max 1 (Int.floor (pct * prob * (n : ℚ))).toNat := by
  have hq : (0 : ℚ) ≤ pct * prob * (n : ℚ) :=
    mul_nonneg h (by positivity)
  have hfl : 0 ≤ Int.floor (pct * prob * (n : ℚ)) :=
    Int.le_floor.mpr (by simpa using hq)
  unfold numHgtsRep pyInt
  simp only [hq, if_true]
  rcases Nat.lt_or_ge (Int.floor (pct * prob * (n : ℚ))).toNat 1 with hlt | hge
  · have : Int.floor (pct * prob * (n : ℚ)) = 0 := by omega
    simp [this]
  · have h1 : ¬ Int.floor (pct * prob * (n : ℚ)) < 1 := by omega
    simp only [h1, if_false]
    omega

theorem numHgtsAcq_eq_floor (pct prob : ℚ) (n : Nat)
    (h : 0 ≤ pct * (1 - prob)) :
    numHgtsAcq pct prob n
      = max 1 (Int.floor (pct * (1 - prob) * (n : ℚ))).toNat := by
  have hq : (0 : ℚ) ≤ pct * (1 - prob) * (n : ℚ) :=
    mul_nonneg h (by positivity)
  have hfl : 0 ≤ Int.floor (pct * (1 - prob) * (n : ℚ)) :=
    Int.le_floor.mpr (by simpa using hq)
  unfold numHgtsAcq pyInt
  simp only [hq, if_true]
  rcases Nat.lt_or_ge (Int.floor (pct * (1 - prob) * (n : ℚ))).toNat 1 with hlt | hge
  · have : Int.floor (pct * (1 - prob) * (n : ℚ)) = 0 := by omega
    simp [this]
  · have h1 : ¬ Int.floor (pct * (1 - prob) * (n : ℚ)) < 1 := by omega
    simp only [h1, if_false]
    omega

/-! ### Catalog-size bookkeeping of the two passes -/

theorem applyRepEdit_stats (gd : Catalog) (sd : List Char) (st st1 : SimState)
    (dLbl rLbl : String)
    (hfresh : (dLbl ++ "_hgt_o") ∉ catKeys st.genes)
    (h : applyRepEdit gd sd st dLbl rLbl = some st1) :
    st1.genes.length = st.genes.length ∧
    catKeys st1.genes = ((catKeys st.genes).erase rLbl) ++ [dLbl ++ "_hgt_o"] ∧
    countN st1.log = countN st.log := by
  unfold applyRepEdit at h
  cases hfind : assocFind gd dLbl with
  | none => rw [hfind] at h; simp at h
  | some dRec =>
    cases hpop : assocPop st.genes rLbl with
    | none => rw [hfind, hpop] at h; simp at h
    | some pr =>
      obtain ⟨rRec, genes1⟩ := pr
      rw [hfind, hpop] at h
      simp only [Option.some.injEq] at h
      have hfresh1 : (dLbl ++ "_hgt_o") ∉ catKeys genes1 :=
        assocPop_not_mem st.genes rLbl rRec genes1 hpop _ hfresh
      have hlen := assocPop_length st.genes rLbl rRec genes1 hpop
      have hkeys := assocPop_keys st.genes rLbl rRec genes1 hpop
      subst h
      refine ⟨?_, ?_, ?_⟩
      · simp only [orthologousEditCore]
        rw [assocInsert_length_fresh genes1 _ _ hfresh1]
        omega
      · simp only [orthologousEditCore]
        rw [assocInsert_keys_fresh genes1 _ _ hfresh1, hkeys]
      · simp [orthologousEditCore, countN, LogRec.isN]

theorem repPassPairs_stats (gd : Catalog) (sd : List Char) :
    ∀ (pairs : List (String × String)) (st st1 : SimState),
    (pairs.map Prod.snd).Nodup →
    (∀ p ∈ pairs, p.2 ∈ catKeys st.genes) →
    (pairs.map (fun p => p.1 ++ "_hgt_o")).Nodup →
    (∀ p ∈ pairs, (p.1 ++ "_hgt_o") ∉ catKeys st.genes) →
    repPassPairs gd sd st pairs = some st1 →
    st1.genes.length = st.genes.length ∧ countN st1.log = countN st.log := by
  intro pairs
  induction pairs with
  | nil =>
    intro st st1 _ _ _ _ h
    simp only [repPassPairs, Option.some.injEq] at h
    subst h
    exact ⟨rfl, rfl⟩
  | cons p rest ih =>
    intro st st1 hrecnd hrecmem hsynnd hsynfresh h
    obtain ⟨dLbl, rLbl⟩ := p
    rw [repPassPairs] at h
    cases happ : applyRepEdit gd sd st dLbl rLbl with
    | none => rw [happ] at h; simp at h
    | some stm =>
      rw [happ] at h
      have hfresh0 : (dLbl ++ "_hgt_o") ∉ catKeys st.genes :=
        hsynfresh (dLbl, rLbl) (List.mem_cons_self _ _)
      obtain ⟨hlen, hkeys, hcnt⟩ :=
        applyRepEdit_stats gd sd st stm dLbl rLbl hfresh0 happ
      simp only [List.map_cons, List.nodup_cons] at hrecnd hsynnd
      have hstep := ih stm st1 hrecnd.2 ?_ hsynnd.2 ?_ h
      · exact ⟨hstep.1.trans hlen, hstep.2.trans hcnt⟩
      · intro q hq
        rw [hkeys]
        apply List.mem_append_left
        have hqne : q.2 ≠ rLbl := by
          intro heq
          exact hrecnd.1 (heq ▸ List.mem_map_of_mem Prod.snd hq)
        exact (List.mem_erase_of_ne hqne).mpr
          (hrecmem q (List.mem_cons_of_mem _ hq))
      · intro q hq
        rw [hkeys]
        intro hmem
        rcases List.mem_append.mp hmem with hin | hin
        · exact hsynfresh q (List.mem_cons_of_mem _ hq)
            (List.mem_of_mem_erase hin)
        · have : q.1 ++ "_hgt_o" = dLbl ++ "_hgt_o" := by
            simpa using hin
          exact hsynnd.1 (this ▸ List.mem_map_of_mem _ hq)

theorem novelStep_stats (gd : Catalog) (sd : List Char)
    (ps : List (Nat × Nat)) (st : SimState) (r : Nat) (lbl : String)
    (hfresh : (lbl ++ "_hgt_n") ∉ catKeys st.genes) :
    novelStep gd sd ps st r lbl = st ∨
    (catKeys (novelStep gd sd ps st r lbl).genes
        = catKeys st.genes ++ [lbl ++ "_hgt_n"] ∧
      (novelStep gd sd ps st r lbl).genes.length = st.genes.length + 1 ∧
      countN (novelStep gd sd ps st r lbl).log = countN st.log + 1) := by
  cases hfind : assocFind gd lbl with
  | none => left; simp [novelStep, hfind]
  | some dRec =>
    cases hslot : findSlot ps r (dRec.trans.length * 3) with
    | none => left; simp [novelStep, hfind, hslot]
    | some c =>
      right
      have hstep : novelStep gd sd ps st r lbl =
          { genes := assocInsert st.genes (lbl ++ "_hgt_n")
              ⟨dRec.trans, c, c + dRec.trans.length * 3, dRec.strand⟩
            seq := st.seq.take c ++ pySlice sd dRec.start dRec.endPos
                    ++ st.seq.drop c
            log := st.log ++ [LogRec.n lbl dRec.start dRec.endPos
                    (lbl ++ "_hgt_n") c (c + dRec.trans.length * 3)
                    dRec.strand] } := by
        simp [novelStep, hfind, hslot]
      rw [hstep]
      refine ⟨?_, ?_, ?_⟩
      · exact assocInsert_keys_fresh st.genes _ _ hfresh
      · exact assocInsert_length_fresh st.genes _ _ hfresh
      · simp [countN, LogRec.isN]

theorem novelPass_stats (gd : Catalog) (sd : List Char)
    (ps : List (Nat × Nat)) :
    ∀ (draws : List (Nat × String)) (st : SimState),
    (draws.map (fun d => d.2 ++ "_hgt_n")).Nodup →
    (∀ d ∈ draws, (d.2 ++ "_hgt_n") ∉ catKeys st.genes) →
    (novelPass gd sd ps st draws).genes.length + countN st.log
      = st.genes.length + countN (novelPass gd sd ps st draws).log := by
  intro draws
  induction draws with
  | nil => intro st _ _; simp [novelPass]
  | cons d rest ih =>
    intro st hnd hfresh
    obtain ⟨r, lbl⟩ := d
    rw [novelPass]
    simp only [List.map_cons, List.nodup_cons] at hnd
    have hfresh0 : (lbl ++ "_hgt_n") ∉ catKeys st.genes :=
      hfresh (r, lbl) (List.mem_cons_self _ _)
    rcases novelStep_stats gd sd ps st r lbl hfresh0 with heq | ⟨hkeys, hlen, hcnt⟩
    · rw [heq]
      apply ih st hnd.2
      intro q hq
      exact hfresh q (List.mem_cons_of_mem _ hq)
    · have hrec := ih (novelStep gd sd ps st r lbl) hnd.2 ?_
      · omega
      · intro q hq
        rw [hkeys]
        intro hmem
        rcases List.mem_append.mp hmem with hin | hin
        · exact hfresh q (List.mem_cons_of_mem _ hq) hin
        · have : q.2 ++ "_hgt_n" = lbl ++ "_hgt_n" := by simpa using hin
          exact hnd.1 (this ▸ List.mem_map_of_mem _ hq)

/-! ## The claims -/

/-- Claim C1, counterexample: with a recipient gene at `[2,11)` (3
residues) replaced by a donor gene of 2 residues at `[5,11)`, the code
splices over the *recomputed* range `[2,8)` (the end is updated at line
304 before being read back at line 307), producing `01fghijk89AB` and
not the old-range result `01fghijkB` that the claim describes. -/
theorem claim1_counterexample :
    (orthologousEditCore ("d") ⟨"MA", 5, 11, "+"⟩ ("r") ⟨"MAC", 2, 11, "+"⟩ []
        ("abcdefghijkl".data) ("0123456789AB".data) []).seq
      = ("01fghijk89AB").data ∧
    ¬ (orthologousEditCore ("d") ⟨"MA", 5, 11, "+"⟩ ("r") ⟨"MAC", 2, 11, "+"⟩ []
        ("abcdefghijkl".data) ("0123456789AB".data) []).seq
      = ("0123456789AB").data.take 2 ++ pySlice ("abcdefghijkl".data) 5 11
          ++ ("0123456789AB").data.drop 11 := by
  exact ⟨by decide, by decide⟩

/-- Claim C1 (amended): for every orthologous replacement edit, the
recipient gene's end is recomputed as `start + 3*len(donor translated
sequence)`, and the recipient nucleotide sequence is spliced over the
*recomputed* range `[start, start + 3*len(donor trans))` — not the old
`[start, end)` range — with the replacement bytes being the donor
sequence's subsequence `[donor_start, donor_end)`; the catalog gains the
`_hgt_o` record with the recomputed end (strand taken from the donor
when the strands differ), and one `o` log record is appended. -/
theorem claim1_theorem (dLbl rLbl : String) (dRec rRec : GeneRecord)
    (genes1 : Catalog) (sd sr : List Char) (log : List LogRec) :
    (orthologousEditCore dLbl dRec rLbl rRec genes1 sd sr log).seq
      = sr.take rRec.start ++ pySlice sd dRec.start dRec.endPos
          ++ sr.drop (rRec.start + dRec.trans.length * 3) ∧
    assocFind (orthologousEditCore dLbl dRec rLbl rRec genes1 sd sr log).genes
        (dLbl ++ "_hgt_o")
      = some ⟨dRec.trans, rRec.start, rRec.start + dRec.trans.length * 3,
          if rRec.strand ≠ dRec.strand then dRec.strand else rRec.strand⟩ ∧
    (orthologousEditCore dLbl dRec rLbl rRec genes1 sd sr log).log
      = log ++ [LogRec.o dLbl dRec.start dRec.endPos rLbl (dLbl ++ "_hgt_o")
          rRec.start (rRec.start + dRec.trans.length * 3) dRec.strand] := by
  refine ⟨rfl, ?_, rfl⟩
  exact assocFind_assocInsert_self genes1 (dLbl ++ "_hgt_o") _

/-- Claim C2, counterexample: on the spec's concrete scenario
(`g1 = [0,30)`, `g2 = [40,70)`, 100-nucleotide recipient, 15-nucleotide
donor gene, search starting at `g1`'s rank) the code inserts at point 1
with interval `[1,16)` — not at point 30 with interval `[30,45)` as the
claim states: the candidate after `g1` is `30+1 = 31` (rejected, since
`31+15 ≥ 40`), and the `(0,0)` sentinel, stably sorted after `g1`,
yields the next candidate `0+1 = 1`, which is accepted. -/
theorem claim2_counterexample :
    simulate_novel_acq gdScenario sdScenario 0 (1/2) [0] [0]
        ⟨grScenario, srScenario, []⟩ = some stScenario ∧
    ¬ assocFind stScenario.genes ("d1_hgt_n") = some ⟨"MMMMM", 30, 45, "+"⟩ ∧
    assocFind stScenario.genes ("d1_hgt_n") = some ⟨"MMMMM", 1, 16, "+"⟩ := by
  refine ⟨?_, by decide, by decide⟩
  unfold simulate_novel_acq
  norm_num [numHgtsAcq, pyInt, grScenario]
  decide

/-- Claim C2 (amended): the open-slot search starts from the interval at
the drawn rank in the sorted position index; the candidate insertion
point is *one past* the current interval's end (`end + 1`), and the
first candidate whose span to the next interval's start strictly
exceeds the required gene length is accepted (the scan is a first-match
search over the chained candidates).  In the concrete scenario the
sorted index is `[(0,30),(0,0),(40,70),(100,100)]` (the `(0,0)`
sentinel sorts after `g1` by stability), the chosen insertion point is
1, the new gene interval is `[1,16)`, the final sequence length is 115,
and `g2`'s entry stays `[40,70)`. -/
theorem claim2_theorem :
    (∀ (len3 cand : Nat) (l : List (Nat × Nat)),
      scanSlot len3 cand l
        = ((slotCands cand l).find? (fun p => decide (p.1 + len3 < p.2))).map
            Prod.fst) ∧
    sortPositions (genePositions grScenario 100)
      = [(0, 30), (0, 0), (40, 70), (100, 100)] ∧
    findSlot (sortPositions (genePositions grScenario 100)) 0 15 = some 1 ∧
    simulate_novel_acq gdScenario sdScenario 0 (1/2) [0] [0]
        ⟨grScenario, srScenario, []⟩ = some stScenario ∧
    assocFind stScenario.genes ("d1_hgt_n") = some ⟨"MMMMM", 1, 16, "+"⟩ ∧
    stScenario.seq.length = 115 ∧
    assocFind stScenario.genes ("g2") = some ⟨"KLMNOPQRST", 40, 70, "+"⟩ := by
  refine ⟨fun len3 cand l => scanSlot_eq_find len3 l cand, by decide, by decide,
    ?_, by decide, by decide, by decide⟩
  unfold simulate_novel_acq
  norm_num [numHgtsAcq, pyInt, grScenario]
  decide

/-- Claim C3, counterexample: the family line filter keeps any group
with at least two member labels, also when *both* are donor-origin
(`'0'`-prefixed); on such a group the rejection-sampling loop never
finds a `'1'`-prefixed member and does not terminate — here shown by a
draw sequence that samples every member index four times over and still
leaves the loop running. -/
theorem claim3_counterexample :
    parse_orthofinder_group (["OG0:", "0a", "0b", "0c"]) = some (["0a", "0b"]) ∧
    (["0a", "0b"] : List String).all
        (fun g => ! pyStartsWith g ('1')) = true ∧
    selectPairLoop (fun s => s) (["0a", "0b"]) [0, 1, 0, 1, 0, 1, 0, 1]
        none none = none := by
  exact ⟨by decide, by decide, by decide⟩

/-- Claim C3 (amended): the rejection-sampling loop terminates on a
group that contains at least one donor-origin and one recipient-origin
member, as soon as the random draws have hit one member of each tag;
the `≥2`-members filter alone does not guarantee this. -/
theorem claim3_theorem (seqIds : String → String) (grp : List String)
    (draws : List Nat) (i j : Nat)
    (hi : pyStartsWith (grp.getD i "") ('0') = true)
    (hj : pyStartsWith (grp.getD j "") ('1') = true)
    (hid : i ∈ draws) (hjd : j ∈ draws) :
    (selectPairLoop seqIds grp draws none none).isSome = true :=
  selectPairLoop_isSome seqIds grp draws none none
    (Or.inr ⟨i, hid, hi⟩) (Or.inr ⟨j, hjd, hj⟩)

/-- Claim C3, witness: a group with one member of each tag, drawn in
turn, lets the loop finish. -/
theorem claim3_witness :
    (selectPairLoop (fun s => s) (["0a", "1b"]) [0, 1] none none).isSome
      = true :=
  claim3_theorem (fun s => s) (["0a", "1b"]) [0, 1] 0 1
    (by decide) (by decide) (by decide) (by decide)

/-- Claim C4, counterexample: with `percentage_hgts = 11/16`,
`pass_fraction = 1` and 4 recipient genes the product is `2.75`; the
code's `int()` truncation gives 2 HGTs, while the claim's
`max(1, round(...))` gives 3. -/
theorem claim4_counterexample :
    numHgtsRep (11 / 16) 1 4 = 2 ∧ numHgtsSpecRound (11 / 16) 1 4 = 3 := by
  constructor
  · norm_num [numHgtsRep, pyInt]
    rfl
  · norm_num [numHgtsSpecRound, roundHalfUp]
    rfl

/-- Claim C4 (amended): for nonnegative fractions with
`orthologous_rep_prob ≤ 1`, the number of HGTs attempted by each pass
equals `max(1, floor(percentage_hgts * pass_fraction * |catalog|))` —
`int()` truncation, not rounding — where the pass fraction is
`orthologous_rep_prob` for the replacement pass and
`1 - orthologous_rep_prob` for the acquisition pass; in particular at
least 1 HGT is always attempted. -/
theorem claim4_theorem (pct prob : ℚ) (n : Nat) (hpct : 0 ≤ pct)
    (hp0 : 0 ≤ prob) (hp1 : prob ≤ 1) :
    numHgtsRep pct prob n
      = max 1 (Int.floor (pct * prob * (n : ℚ))).toNat ∧
    numHgtsAcq pct prob n
      = max 1 (Int.floor (pct * (1 - prob) * (n : ℚ))).toNat ∧
    1 ≤ numHgtsRep pct prob n ∧ 1 ≤ numHgtsAcq pct prob n := by
  have h1 := numHgtsRep_eq_floor pct prob n (mul_nonneg hpct hp0)
  have h2 := numHgtsAcq_eq_floor pct prob n
    (mul_nonneg hpct (by linarith))
  refine ⟨h1, h2, ?_, ?_⟩
  · rw [h1]; exact Nat.le_max_left 1 _
  · rw [h2]; exact Nat.le_max_left 1 _

/-- Claim C4, witness: at `percentage_hgts = 1/2`,
`orthologous_rep_prob = 1/2` and 4 recipient genes. -/
theorem claim4_witness :
    numHgtsRep (1 / 2) (1 / 2) 4
        = max 1 (Int.floor ((1 / 2 : ℚ) * (1 / 2) * (4 : ℚ))).toNat ∧
    numHgtsAcq (1 / 2) (1 / 2) 4
        = max 1 (Int.floor ((1 / 2 : ℚ) * (1 - 1 / 2) * (4 : ℚ))).toNat ∧
    1 ≤ numHgtsRep (1 / 2) (1 / 2) 4 ∧ 1 ≤ numHgtsAcq (1 / 2) (1 / 2) 4 :=
  claim4_theorem (1 / 2) (1 / 2) 4 (by norm_num) (by norm_num) (by norm_num)

/-- Claim C5: a complete two-pass run (replacement of `g1` by the donor
gene `d0`, then acquisition of `d1`) ends with catalog intervals
`[0,30)` and `[1,16)` that overlap — the final catalog is *not*
pairwise non-overlapping, contradicting the code's own stated goal of
avoiding gene overlap (the acquisition pass inserted inside an existing
gene because the `(0,0)` sentinel sorts after a gene starting at 0). -/
theorem claim5_theorem :
    simulate_hgts gdRun sdScenario grScenario srScenario idsRun groupsRun
        1 (1 / 2) randRun = some stFinalRun ∧
    pairwiseDisjointB (intervalsOf stFinalRun.genes) = false ∧
    assocFind stFinalRun.genes ("d0_hgt_o")
      = some ⟨"WWWWWWWWWW", 0, 30, "-"⟩ ∧
    assocFind stFinalRun.genes ("d1_hgt_n") = some ⟨"MMMMM", 1, 16, "+"⟩ ∧
    overlapsB (0, 30) (1, 16) = true := by
  have hrep : simulate_orthologous_rep gdRun sdScenario idsRun groupsRun
      (1 / 2) 1 [0] [[0, 1]] ⟨grScenario, srScenario, []⟩
        = some stAfterRep := by
    unfold simulate_orthologous_rep
    norm_num [numHgtsRep, pyInt, grScenario]
    decide
  have hacq : simulate_novel_acq gdRun sdScenario (1 / 2) 1 [0] [0] stAfterRep
      = some stFinalRun := by
    unfold simulate_novel_acq
    norm_num [numHgtsAcq, pyInt, stAfterRep]
    decide
  refine ⟨?_, by decide, by decide, by decide, by decide⟩
  unfold simulate_hgts
  norm_num [randRun, show groupsRun.isEmpty = false from rfl]
  simp only [hrep]
  exact hacq

/-- Claim C6: a successful novel acquisition splices exactly the donor
subsequence `[donor_start, donor_end)` into the recipient sequence at
the insertion point; when the donor record is well formed (its interval
length is `3 * len(translation)` and lies within the donor sequence)
the spliced bytes number `3 * len(translation)`, and the new catalog
record always satisfies `end - start = 3 * len(translation)`. -/
theorem claim6_theorem (gd : Catalog) (sd : List Char) (ps : List (Nat × Nat))
    (st : SimState) (r : Nat) (lbl : String) (dRec : GeneRecord) (c : Nat)
    (hfind : assocFind gd lbl = some dRec)
    (hslot : findSlot ps r (dRec.trans.length * 3) = some c)
    (hlen : dRec.endPos = dRec.start + dRec.trans.length * 3)
    (hbound : dRec.endPos ≤ sd.length) :
    (novelStep gd sd ps st r lbl).seq
      = st.seq.take c ++ pySlice sd dRec.start dRec.endPos ++ st.seq.drop c ∧
    (pySlice sd dRec.start dRec.endPos).length = 3 * dRec.trans.length ∧
    assocFind (novelStep gd sd ps st r lbl).genes (lbl ++ "_hgt_n")
      = some ⟨dRec.trans, c, c + dRec.trans.length * 3, dRec.strand⟩ ∧
    (c + dRec.trans.length * 3) - c = 3 * dRec.trans.length := by
  have hslice : (pySlice sd dRec.start dRec.endPos).length
      = 3 * dRec.trans.length := by
    rw [pySlice_length sd dRec.start dRec.endPos (by omega) hbound]
    omega
  have hstep : novelStep gd sd ps st r lbl =
      { genes := assocInsert st.genes (lbl ++ "_hgt_n")
          ⟨dRec.trans, c, c + dRec.trans.length * 3, dRec.strand⟩
        seq := st.seq.take c ++ pySlice sd dRec.start dRec.endPos
                ++ st.seq.drop c
        log := st.log ++ [LogRec.n lbl dRec.start dRec.endPos
                (lbl ++ "_hgt_n") c (c + dRec.trans.length * 3)
                dRec.strand] } := by
    simp [novelStep, hfind, hslot]
  rw [hstep]
  exact ⟨rfl, hslice, assocFind_assocInsert_self st.genes _ _, by omega⟩

/-- Claim C6, witness: a 6-nucleotide donor gene (2 residues) inserted at
point 1. -/
theorem claim6_witness :
    (novelStep [("d", ⟨"MM", 0, 6, "+"⟩)] (("abcdefgh").data)
        [(0, 0), (50, 50)] ⟨[], List.replicate 50 ('x'), []⟩ 0 ("d")).seq
      = (List.replicate 50 ('x')).take 1 ++ pySlice (("abcdefgh").data) 0 6
          ++ (List.replicate 50 ('x')).drop 1 ∧
    (pySlice (("abcdefgh").data) 0 6).length = 3 * 2 ∧
    assocFind (novelStep [("d", ⟨"MM", 0, 6, "+"⟩)] (("abcdefgh").data)
        [(0, 0), (50, 50)] ⟨[], List.replicate 50 ('x'), []⟩ 0 ("d")).genes
        ("d_hgt_n")
      = some ⟨"MM", 1, 7, "+"⟩ ∧
    (1 + 2 * 3) - 1 = 3 * 2 :=
  claim6_theorem [("d", ⟨"MM", 0, 6, "+"⟩)] (("abcdefgh").data)
    [(0, 0), (50, 50)] ⟨[], List.replicate 50 ('x'), []⟩ 0 ("d")
    ⟨"MM", 0, 6, "+"⟩ 1 (by decide) (by decide) (by decide) (by decide)

/-- Claim C7: a novel-acquisition draw whose forward scan finds no open
slot is skipped entirely — the state (catalog, sequence, log) is
unchanged and the pass continues with the remaining draws exactly as if
the draw had not existed. -/
theorem claim7_theorem (gd : Catalog) (sd : List Char) (ps : List (Nat × Nat))
    (st : SimState) (r : Nat) (lbl : String) (dRec : GeneRecord)
    (rest : List (Nat × String))
    (hfind : assocFind gd lbl = some dRec)
    (hslot : findSlot ps r (dRec.trans.length * 3) = none) :
    novelStep gd sd ps st r lbl = st ∧
    (novelStep gd sd ps st r lbl).genes = st.genes ∧
    (novelStep gd sd ps st r lbl).seq = st.seq ∧
    (novelStep gd sd ps st r lbl).log = st.log ∧
    novelPass gd sd ps st ((r, lbl) :: rest) = novelPass gd sd ps st rest := by
  have hstep : novelStep gd sd ps st r lbl = st := by
    simp [novelStep, hfind, hslot]
  have hpass : novelPass gd sd ps st ((r, lbl) :: rest)
      = novelPass gd sd ps (novelStep gd sd ps st r lbl) rest := rfl
  refine ⟨hstep, by rw [hstep], by rw [hstep], by rw [hstep], ?_⟩
  rw [hpass, hstep]

/-- Claim C7, witness: a 15-nucleotide donor gene finds no slot in a
5-nucleotide recipient whose position index is
`[(0,0),(4,100),(100,100)]`. -/
theorem claim7_witness :
    novelStep [("d", ⟨"MMMMM", 0, 15, "+"⟩)] []
        [(0, 0), (4, 100), (100, 100)] ⟨[], List.replicate 5 ('x'), []⟩ 0 ("d")
      = ⟨[], List.replicate 5 ('x'), []⟩ ∧
    (novelStep [("d", ⟨"MMMMM", 0, 15, "+"⟩)] []
        [(0, 0), (4, 100), (100, 100)] ⟨[], List.replicate 5 ('x'), []⟩ 0
        ("d")).genes = ([] : Catalog) ∧
    (novelStep [("d", ⟨"MMMMM", 0, 15, "+"⟩)] []
        [(0, 0), (4, 100), (100, 100)] ⟨[], List.replicate 5 ('x'), []⟩ 0
        ("d")).seq = List.replicate 5 ('x') ∧
    (novelStep [("d", ⟨"MMMMM", 0, 15, "+"⟩)] []
        [(0, 0), (4, 100), (100, 100)] ⟨[], List.replicate 5 ('x'), []⟩ 0
        ("d")).log = ([] : List LogRec) ∧
    novelPass [("d", ⟨"MMMMM", 0, 15, "+"⟩)] []
        [(0, 0), (4, 100), (100, 100)] ⟨[], List.replicate 5 ('x'), []⟩
        [(0, ("d")), (1, ("d"))]
      = novelPass [("d", ⟨"MMMMM", 0, 15, "+"⟩)] []
        [(0, 0), (4, 100), (100, 100)] ⟨[], List.replicate 5 ('x'), []⟩
        [(1, ("d"))] :=
  claim7_theorem [("d", ⟨"MMMMM", 0, 15, "+"⟩)] []
    [(0, 0), (4, 100), (100, 100)] ⟨[], List.replicate 5 ('x'), []⟩ 0 ("d")
    ⟨"MMMMM", 0, 15, "+"⟩ [(1, ("d"))] (by decide) (by decide)

/-- Claim C8: the replacement pass aborts (`random.sample` raises)
whenever its computed `num_hgts` exceeds the number of orthologous
groups; the acquisition pass aborts whenever its computed `num_hgts`
exceeds the number of candidate rank positions or the number of donor
genes; and every list returned by `random.sample` over a
duplicate-free population is pairwise distinct. -/
theorem claim8_theorem :
    (∀ (gd : Catalog) (sd : List Char) (seqIds : String → String)
        (groups : List (List String)) (prob pct : ℚ) (rng : List Nat)
        (memberDraws : List (List Nat)) (st : SimState),
      groups.length < numHgtsRep pct prob st.genes.length →
      simulate_orthologous_rep gd sd seqIds groups prob pct rng memberDraws st
        = none) ∧
    (∀ (gd : Catalog) (sd : List Char) (prob pct : ℚ)
        (rngRanks rngLabels : List Nat) (st : SimState),
      ((sortPositions (genePositions st.genes st.seq.length)).length - 1
            < numHgtsAcq pct prob st.genes.length ∨
        gd.length < numHgtsAcq pct prob st.genes.length) →
      simulate_novel_acq gd sd prob pct rngRanks rngLabels st = none) ∧
    (∀ (α : Type) (pool : List α) (k : Nat) (rng : List Nat) (l : List α),
      pool.Nodup → pySample pool k rng = some l → l.Nodup) := by
  refine ⟨?_, ?_, ?_⟩
  · intro gd sd seqIds groups prob pct rng memberDraws st h
    simp [simulate_orthologous_rep, simulate_orthologous_rep_n, pySample,
      List.length_range, h]
  · intro gd sd prob pct rngRanks rngLabels st h
    unfold simulate_novel_acq simulate_novel_acq_n
    rcases h with h | h
    · simp [pySample, List.length_range, h]
    · cases hs : pySample
          (List.range
            ((sortPositions (genePositions st.genes st.seq.length)).length - 1))
          (numHgtsAcq pct prob st.genes.length) rngRanks with
      | none => simp [hs]
      | some ranks =>
        have h2 : pySample (catKeys gd) (numHgtsAcq pct prob st.genes.length)
            rngLabels = none := by
          simp [pySample, catKeys, h]
        simp [hs, h2]
  · intro α pool k rng l hnd h
    exact pySample_nodup pool k rng l hnd h

/-- Claim C8, witness: zero groups (or zero donor genes) cannot serve
one requested HGT, and a concrete 2-element sample from `[0,1,2]` is
duplicate-free. -/
theorem claim8_witness :
    simulate_orthologous_rep [] [] (fun s => s) [] (1 / 2) (1 / 2) [] []
        ⟨[("g", ⟨"A", 0, 3, "+"⟩)], [], []⟩ = none ∧
    simulate_novel_acq [] [] (1 / 2) (1 / 2) [] []
        ⟨[("g", ⟨"A", 0, 3, "+"⟩)], [], []⟩ = none ∧
    ([2, 1] : List Nat).Nodup := by
  refine ⟨claim8_theorem.1 [] [] (fun s => s) [] (1 / 2) (1 / 2) [] [] _ ?_,
    claim8_theorem.2.1 [] [] (1 / 2) (1 / 2) [] [] _ (Or.inr ?_),
    claim8_theorem.2.2 Nat [0, 1, 2] 2 [5, 5] [2, 1] (by decide) (by decide)⟩
  · norm_num [numHgtsRep, pyInt]
  · norm_num [numHgtsAcq, pyInt]

/-- Claim C9: the whole simulation is a pure function of the inputs and
of the explicitly threaded random source, so two runs with equal random
sources produce identical recipient states — catalog, sequence and log
records alike. -/
theorem claim9_theorem (gd : Catalog) (sd : List Char) (gr : Catalog)
    (sr : List Char) (seqIds : String → String) (groups : List (List String))
    (pct prob : ℚ) (r1 r2 : RandSource) (h : r1 = r2) :
    simulate_hgts gd sd gr sr seqIds groups pct prob r1
      = simulate_hgts gd sd gr sr seqIds groups pct prob r2 ∧
    (simulate_hgts gd sd gr sr seqIds groups pct prob r1).map SimState.genes
      = (simulate_hgts gd sd gr sr seqIds groups pct prob r2).map
          SimState.genes ∧
    (simulate_hgts gd sd gr sr seqIds groups pct prob r1).map SimState.seq
      = (simulate_hgts gd sd gr sr seqIds groups pct prob r2).map
          SimState.seq ∧
    (simulate_hgts gd sd gr sr seqIds groups pct prob r1).map SimState.log
      = (simulate_hgts gd sd gr sr seqIds groups pct prob r2).map
          SimState.log := by
  subst h
  exact ⟨rfl, rfl, rfl, rfl⟩

/-- Claim C9, witness: the complete two-pass run repeated with the same
draws. -/
theorem claim9_witness :
    simulate_hgts gdRun sdScenario grScenario srScenario idsRun groupsRun
        1 (1 / 2) randRun
      = simulate_hgts gdRun sdScenario grScenario srScenario idsRun groupsRun
        1 (1 / 2) randRun ∧
    (simulate_hgts gdRun sdScenario grScenario srScenario idsRun groupsRun
        1 (1 / 2) randRun).map SimState.genes
      = (simulate_hgts gdRun sdScenario grScenario srScenario idsRun groupsRun
        1 (1 / 2) randRun).map SimState.genes ∧
    (simulate_hgts gdRun sdScenario grScenario srScenario idsRun groupsRun
        1 (1 / 2) randRun).map SimState.seq
      = (simulate_hgts gdRun sdScenario grScenario srScenario idsRun groupsRun
        1 (1 / 2) randRun).map SimState.seq ∧
    (simulate_hgts gdRun sdScenario grScenario srScenario idsRun groupsRun
        1 (1 / 2) randRun).map SimState.log
      = (simulate_hgts gdRun sdScenario grScenario srScenario idsRun groupsRun
        1 (1 / 2) randRun).map SimState.log :=
  claim9_theorem gdRun sdScenario grScenario srScenario idsRun groupsRun
    1 (1 / 2) randRun randRun rfl

/-- Claim C10: with fresh and pairwise-distinct synthetic ids (and
recipient labels present and pairwise distinct), every replacement edit
preserves the catalog size, so the replacement pass leaves the catalog
size unchanged; every successful acquisition adds exactly one entry and
one `n` log record, so after both passes the final catalog size equals
the original size plus the number of `n`-type log records. -/
theorem claim10_theorem (gd : Catalog) (sd : List Char) (gr : Catalog)
    (sr : List Char) (pairs : List (String × String)) (ps : List (Nat × Nat))
    (draws : List (Nat × String)) (st1 : SimState)
    (hrecnd : (pairs.map Prod.snd).Nodup)
    (hrecmem : ∀ p ∈ pairs, p.2 ∈ catKeys gr)
    (hsynnd : (pairs.map (fun p => p.1 ++ "_hgt_o")).Nodup)
    (hsynfresh : ∀ p ∈ pairs, (p.1 ++ "_hgt_o") ∉ catKeys gr)
    (hrep : repPassPairs gd sd ⟨gr, sr, []⟩ pairs = some st1)
    (hnnd : (draws.map (fun d => d.2 ++ "_hgt_n")).Nodup)
    (hnfresh : ∀ d ∈ draws, (d.2 ++ "_hgt_n") ∉ catKeys st1.genes) :
    st1.genes.length = gr.length ∧
    (novelPass gd sd ps st1 draws).genes.length
      = gr.length + countN (novelPass gd sd ps st1 draws).log := by
  have hrep2 := repPassPairs_stats gd sd pairs ⟨gr, sr, []⟩ st1
    hrecnd hrecmem hsynnd hsynfresh hrep
  have hacq := novelPass_stats gd sd ps draws st1 hnnd hnfresh
  have hlen : st1.genes.length = gr.length := by simpa using hrep2.1
  have hcnt : countN st1.log = 0 := by simpa [countN] using hrep2.2
  exact ⟨hlen, by omega⟩

/-- Claim C10, witness: the two-pass run on the scenario genomes — one
replacement (size 2 stays 2), one acquisition (size 3 = 2 + one `n`
record). -/
theorem claim10_witness :
    stAfterRep.genes.length = grScenario.length ∧
    (novelPass gdRun sdScenario [(0, 0), (200, 200)] stAfterRep
        [(0, ("d1"))]).genes.length
      = grScenario.length
        + countN (novelPass gdRun sdScenario [(0, 0), (200, 200)] stAfterRep
            [(0, ("d1"))]).log :=
  claim10_theorem gdRun sdScenario grScenario srScenario [(("d0"), ("g1"))]
    [(0, 0), (200, 200)] [(0, ("d1"))] stAfterRep
    (by decide) (by decide) (by decide) (by decide) (by decide)
    (by decide) (by decide)
